import Mathlib

/-!
Shallow embedding of `telegram/inline/inlinekeyboardmarkup.py`
(class `InlineKeyboardMarkup`) from the python-telegram-bot fork.

The button type is opaque to this module: every definition is parametrised by
a button type `β`, by the button's own equality `btnEq : β → β → Bool`, and
(for serialization) by the button's own `to_dict` / `de_json` pair
`btnToDict : β → δ`, `btnDeJson : δ → Option β` into an opaque
JSON-object type `δ`.

Python list primitives (negative indexing, `list.insert` clamping) are
embedded explicitly so that the index arithmetic of `add_button` is modelled
exactly as CPython executes it.
-/

/-- Python `lst[i]`: a negative index counts from the end; an index that is
still out of range after that adjustment raises `IndexError`, modelled as
`none`. -/
def pyGet {α : Type*} (l : List α) (i : Int) : Option α :=
  let j : Int := if i < 0 then i + l.length else i
  if j < 0 then none else l[j.toNat]?

/-- Python `lst.insert(i, x)` for a non-negative effective index: inserts
before position `i`, appending when `i` is at or beyond the end (CPython
clamps, it never fails). -/
def pyInsertNat {α : Type*} (x : α) : Nat → List α → List α
  | 0, l => x :: l
  | _ + 1, [] => [x]
  | n + 1, a :: l => a :: pyInsertNat x n l

/-- Python `lst.insert(i, x)` with full index semantics: a negative `i` is
shifted by the length and floored at 0; a large `i` appends. -/
def pyInsert {α : Type*} (l : List α) (i : Int) (x : α) : List α :=
  let j : Int := if i < 0 then max 0 (i + l.length) else i
  pyInsertNat x j.toNat l

/-- The `interval_value` helper nested inside `add_button`:
`min(max(lower, value), upper)`. -/
def interval_value (lower upper value : Int) : Int :=
  min (max lower value) upper

/-- The grid: field `inline_keyboard` of `InlineKeyboardMarkup`, a list of
rows of buttons. -/
structure InlineKeyboardMarkup (β : Type) where
  inline_keyboard : List (List β)
deriving DecidableEq, Repr

/-- Body of `InlineKeyboardMarkup.__init__`:
`self.inline_keyboard = [[]] if inline_keyboard is None else inline_keyboard`.
The default fires only when the argument is absent (`None`), not when it is
an explicitly supplied empty list. -/
def initKeyboard {β : Type} (inline_keyboard : Option (List (List β))) :
    List (List β) :=
  match inline_keyboard with
  | none => [[]]
  | some kb => kb

/-- Classmethod `InlineKeyboardMarkup.from_button`: `cls([[button]])`. -/
def from_button {β : Type} (button : β) : InlineKeyboardMarkup β :=
  ⟨[[button]]⟩

/-- Classmethod `InlineKeyboardMarkup.from_row`: `cls([button_row])`. -/
def from_row {β : Type} (button_row : List β) : InlineKeyboardMarkup β :=
  ⟨[button_row]⟩

/-- Classmethod `InlineKeyboardMarkup.from_column`:
`cls([[button] for button in column])`. -/
def from_column {β : Type} (button_column : List β) : InlineKeyboardMarkup β :=
  ⟨button_column.map fun b => [b]⟩

/-- The two exception kinds `add_button` can surface: `IndexError` (both the
explicitly raised range check and CPython's own out-of-range list subscript)
and the `AttributeError` raised when `from_row` and `insert_row` are both
passed. -/
inductive AddErr where
  | indexError
  | attributeError
deriving DecidableEq, Repr

/-- Method `InlineKeyboardMarkup.add_button(button, from_row, insert_row,
insert_column)`, embedded statement by statement. The Python method mutates
`self.inline_keyboard` and returns `self`; here the new grid is returned in
`Except`, with `.error` for the raised exception (no mutation has happened at
any raise site: every failure occurs while evaluating subscripts, before any
`insert`/`append` runs).

Faithfulness notes: in the `from_row`+`insert_column` branch the column clamp
bound is `len(self.inline_keyboard[from_row])` with the RAW `from_row` (Python
negative indexing, which can itself raise `IndexError`), while the mutated row
is selected by the CLAMPED index `interval_value(0, max_row, from_row)`; and
when the grid has zero rows, the clamped index is `-1` and subscripts on the
empty list raise. -/
def add_button {β : Type} (kb : List (List β)) (button : β)
    (from_row insert_row insert_column : Option Int) :
    Except AddErr (List (List β)) :=
  let max_row : Int := (kb.length : Int) - 1
  match from_row, insert_row with
  | some fr, none =>
    if fr > max_row then .error .indexError
    else
      match insert_column with
      | some ic =>
        match pyGet kb (interval_value 0 max_row fr) with
        | none => .error .indexError
        | some target =>
          match pyGet kb fr with
          | none => .error .indexError
          | some rowFr =>
            .ok (kb.set (interval_value 0 max_row fr).toNat
              (pyInsert target (interval_value 0 rowFr.length ic) button))
      | none =>
        match pyGet kb (interval_value 0 max_row fr) with
        | none => .error .indexError
        | some target =>
          .ok (kb.set (interval_value 0 max_row fr).toNat (target ++ [button]))
  | none, some ir =>
    .ok (pyInsert kb (interval_value 0 (max_row + 1) ir) [button])
  | none, none =>
    match insert_column with
    | some ic =>
      match pyGet kb (-1) with
      | none => .error .indexError
      | some lastRow =>
        .ok (kb.set (kb.length - 1)
          (pyInsert lastRow (interval_value 0 lastRow.length ic) button))
    | none =>
      match pyGet kb (-1) with
      | none => .error .indexError
      | some lastRow => .ok (kb.set (kb.length - 1) (lastRow ++ [button]))
  | some _, some _ => .error .attributeError

/-- Modelled from the spec: `add_from_markup` is exercised by
`tests/test_inlinekeyboardmarkup.py::test_add_from_markup` but its definition
is not under `src/`. Per the spec, merging rows from grid B into grid A at a
given insertion index places B's rows contiguously at that index, shifting
A's subsequent rows down and preserving both grids' internal order; with no
index the rows are appended at the end (the test appends B when `index` is
omitted). -/
def add_from_markup {β : Type} (a b : List (List β)) (index : Option Nat) :
    List (List β) :=
  match index with
  | none => a ++ b
  | some i => a.take i ++ b ++ a.drop i

/-- Row comparison step of `InlineKeyboardMarkup.__eq__`: equal lengths and
button-by-button equality under the button type's own equality. -/
def row_eq {β : Type} (btnEq : β → β → Bool) (ra rb : List β) : Bool :=
  ra.length == rb.length && (List.zip ra rb).all fun p => btnEq p.1 p.2

/-- Grid part of `InlineKeyboardMarkup.__eq__`: equal row counts, then for
each row index equal row lengths and pairwise-equal buttons (the Python loop
with its early `return False` exits). -/
def kb_eq {β : Type} (btnEq : β → β → Bool) (a b : List (List β)) : Bool :=
  a.length == b.length && (List.zip a b).all fun p => row_eq btnEq p.1 p.2

/-- A comparand of `__eq__`: either another markup or a value of an unrelated
type (its identity abstracted to a tag). -/
inductive PyObject (β : Type) where
  | markup (m : InlineKeyboardMarkup β)
  | other (tag : Nat)
deriving DecidableEq, Repr

/-- Method `InlineKeyboardMarkup.__eq__`. For a markup comparand it performs the
structural comparison `kb_eq`. For any other comparand it defers to
`super().__eq__`; the base class is not under `src/`, so that branch is
modelled from the spec: "falling back to not equal for any non-grid
comparand rather than throwing". -/
def markup_eq {β : Type} (btnEq : β → β → Bool) (a : InlineKeyboardMarkup β)
    (v : PyObject β) : Bool :=
  match v with
  | .markup b => kb_eq btnEq a.inline_keyboard b.inline_keyboard
  | .other _ => false

/-- One lane of CPython's (3.8+) xxPrime-based tuple hash, on 64-bit
naturals. -/
def tupleHashStep (acc lane : Nat) : Nat :=
  let a := (acc + lane * 14029467366897019727) % 2 ^ 64
  (((a <<< 31) % 2 ^ 64 ||| a >>> 33) * 11400714785074694791) % 2 ^ 64

/-- CPython's `hash(tuple(...))` over the element hashes (3.8+ xxPrime
algorithm, reduced mod 2^64; the signedness and minus-one fixups of CPython
do not affect determinism and are omitted). -/
def pyTupleHash (hs : List Nat) : Nat :=
  (hs.foldl tupleHashStep 2870177450012600261
    + (hs.length ^^^ (2870177450012600261 ^^^ 3527539))) % 2 ^ 64

/-- Method `InlineKeyboardMarkup.__hash__`:
`hash(tuple(tuple(button for button in row) for row in self.inline_keyboard))`,
parametrised by the button type's own hash `hb`. -/
def kb_hash {β : Type} (hb : β → Nat) (kb : List (List β)) : Nat :=
  pyTupleHash (kb.map fun row => pyTupleHash (row.map hb))

/-- A JSON mapping as seen by `de_json`/`to_dict`: the value under the key
`"inline_keyboard"` when that key is present, plus the number of other keys
(their content is irrelevant to this class). The mapping is falsy in Python
(`not data`) exactly when it has no keys at all. -/
structure JSONDict (δ : Type) where
  inline_keyboard : Option (List (List δ))
  otherKeys : Nat
deriving DecidableEq, Repr

/-- Python truthiness test `not data` for a `JSONDict`: true iff the dict has
no keys. -/
def JSONDict.isFalsy {δ : Type} (d : JSONDict δ) : Bool :=
  d.inline_keyboard.isNone && d.otherKeys == 0

/-- Method `InlineKeyboardMarkup.to_dict`: the base-class `to_dict` contributes no
keys here (per the spec, "No other keys are added by this layer"), and the
method stores under `"inline_keyboard"` the row-by-row list of the buttons'
own `to_dict` values. -/
def to_dict {β δ : Type} (btnToDict : β → δ) (m : InlineKeyboardMarkup β) :
    JSONDict δ :=
  ⟨some (m.inline_keyboard.map fun row => row.map btnToDict), 0⟩

/-- Classmethod `InlineKeyboardMarkup.de_json`. `parse_data` (base class, not under
`src/`) passes the mapping through (`None` stays `None`). If the mapping is
absent or falsy the result is `None` (`Except.ok none`). Otherwise the
subscript `data['inline_keyboard']` is unguarded: a non-empty mapping without
that key raises `KeyError`, modelled as `.error ()`. Each button value is
deserialized with the button type's own `de_json`; a button that comes back
`None` is skipped (`if btn:` guard) and parsing continues. -/
def de_json {β δ : Type} (btnDeJson : δ → Option β)
    (data : Option (JSONDict δ)) :
    Except Unit (Option (InlineKeyboardMarkup β)) :=
  match data with
  | none => .ok none
  | some d =>
    if d.isFalsy then .ok none
    else
      match d.inline_keyboard with
      | none => .error ()
      | some rows => .ok (some ⟨rows.map fun row => row.filterMap btnDeJson⟩)

/-! Helper lemmas about the embedded Python list primitives. -/

theorem pyInsertNat_length {α : Type*} (x : α) :
    ∀ (n : Nat) (l : List α), (pyInsertNat x n l).length = l.length + 1
  | 0, _ => rfl
  | _ + 1, [] => rfl
  | n + 1, a :: l => by
    simp only [pyInsertNat, List.length_cons, pyInsertNat_length x n l]

theorem pyInsertNat_eq_take_drop {α : Type*} (x : α) :
    ∀ (n : Nat) (l : List α), n ≤ l.length →
      pyInsertNat x n l = l.take n ++ x :: l.drop n
  | 0, l, _ => rfl
  | n + 1, [], h => by simp at h
  | n + 1, a :: l, h => by
    simp only [pyInsertNat, List.take_succ_cons, List.drop_succ_cons,
      List.cons_append, List.cons.injEq, true_and]
    exact pyInsertNat_eq_take_drop x n l (by simpa using h)

theorem pyInsert_nonneg {α : Type*} (l : List α) (i : Int) (x : α)
    (h : 0 ≤ i) : pyInsert l i x = pyInsertNat x i.toNat l := by
  unfold pyInsert
  rw [if_neg (by omega)]

theorem pyGet_nil {α : Type*} (i : Int) : pyGet ([] : List α) i = none := by
  unfold pyGet
  split <;> simp

theorem pyGet_nonneg {α : Type*} (l : List α) (i : Int) (h : 0 ≤ i) :
    pyGet l i = l[i.toNat]? := by
  unfold pyGet
  rw [if_neg (by omega), if_neg (by omega)]

theorem pyGet_neg {α : Type*} (l : List α) (i : Int)
    (h0 : -(l.length : Int) ≤ i) (h1 : i < 0) :
    pyGet l i = l[(i + l.length).toNat]? := by
  unfold pyGet
  rw [if_pos h1, if_neg (show ¬ i + (l.length : Int) < 0 by omega)]

theorem pyGet_too_neg {α : Type*} (l : List α) (i : Int)
    (h : i < -(l.length : Int)) : pyGet l i = none := by
  unfold pyGet
  rw [if_pos (show i < 0 by omega),
    if_pos (show i + (l.length : Int) < 0 by omega)]

theorem interval_value_nonneg_le (upper value : Int) (h : 0 ≤ upper) :
    0 ≤ interval_value 0 upper value ∧ interval_value 0 upper value ≤ upper := by
  unfold interval_value
  constructor
  · exact le_min (le_max_left 0 value) h
  · exact min_le_right _ _

theorem interval_value_of_mem (upper value : Int) (h0 : 0 ≤ value)
    (h1 : value ≤ upper) : interval_value 0 upper value = value := by
  unfold interval_value
  rw [max_eq_right h0, min_eq_left h1]

/-- C4: `addButton(button, insertRow=i)` with `fromRow` unset clamps `i` into
`[0, rows.length]`, inserts the new single-element row `[button]` at the
clamped position with the existing rows from that position on shifted down by
one and otherwise unchanged, and in particular `insertRow=0` prepends the new
row (the previous row 0 becomes row 1). -/
theorem add_button_insert_row {β : Type} (kb : List (List β)) (b : β)
    (i : Int) :
    add_button kb b none (some i) none =
      .ok (kb.take (interval_value 0 kb.length i).toNat ++
        [b] :: kb.drop (interval_value 0 kb.length i).toNat) ∧
    (interval_value 0 kb.length i).toNat ≤ kb.length ∧
    add_button kb b none (some 0) none = .ok ([b] :: kb) := by
  have key : ∀ v : Int, add_button kb b none (some v) none =
      .ok (pyInsertNat [b] (interval_value 0 kb.length v).toNat kb) := by
    intro v
    show Except.ok (pyInsert kb
      (interval_value 0 ((kb.length : Int) - 1 + 1) v) [b]) = _
    rw [show (kb.length : Int) - 1 + 1 = (kb.length : Int) by omega,
      pyInsert_nonneg _ _ _ (interval_value_nonneg_le _ v
        (Int.natCast_nonneg _)).1]
  obtain ⟨hv0, hvle⟩ := interval_value_nonneg_le (kb.length : Int) i
    (Int.natCast_nonneg _)
  have hle : (interval_value 0 kb.length i).toNat ≤ kb.length := by omega
  refine ⟨?_, hle, ?_⟩
  · rw [key i, pyInsertNat_eq_take_drop _ _ _ hle]
  · rw [key 0, interval_value_of_mem _ 0 le_rfl (Int.natCast_nonneg _)]
    rfl

/-- C3, counterexample to the original claim: on the jagged grid
`[[10, 20], [30]]` with `fromRow = -1` (which is ≤ rows.length - 1) and
`insertColumn = 2`, the claim predicts insertion into the clamped target row 0
at position clamped into `[0, length of target row]` = 2, i.e. the grid
`[[10, 20, 99], [30]]`; the code instead clamps the column against
`len(rows[-1])` — the LAST row, selected by raw Python negative indexing —
so the button lands at position 1 of row 0. -/
theorem add_button_from_row_column_counterexample :
    add_button [[10, 20], [30]] 99 (some (-1)) none (some 2) =
      .ok [[10, 99, 20], [30]] ∧
    ([[10, 99, 20], [30]] : List (List Nat)) ≠ [[10, 20, 99], [30]] := by
  constructor
  · rfl
  · decide

/-- C3 (amended): for every call `addButton(button, fromRow=r, insertColumn=c)`
with `insertRow` unset and `0 ≤ r ≤ rows.length - 1` (for negative `r` the
code consults the raw Python-indexed row for the clamp bound and is not
covered by this claim): the target row is row `r`, `c` is clamped into
`[0, length of that target row]`, the button is inserted at the clamped
position with elements at positions ≥ the index shifted right, and all other
rows are unchanged. -/
theorem add_button_from_row_column {β : Type} (kb : List (List β)) (b : β)
    (r c : Int) (row : List β) (j : Nat)
    (h0 : 0 ≤ r) (h1 : r ≤ (kb.length : Int) - 1)
    (hrow : kb[r.toNat]? = some row) (hj : j ≠ r.toNat) :
    add_button kb b (some r) none (some c) =
      .ok (kb.set r.toNat
        (row.take (interval_value 0 row.length c).toNat ++
          b :: row.drop (interval_value 0 row.length c).toNat)) ∧
    (kb.set r.toNat
        (row.take (interval_value 0 row.length c).toNat ++
          b :: row.drop (interval_value 0 row.length c).toNat))[r.toNat]? =
      some (row.take (interval_value 0 row.length c).toNat ++
        b :: row.drop (interval_value 0 row.length c).toNat) ∧
    (kb.set r.toNat
        (row.take (interval_value 0 row.length c).toNat ++
          b :: row.drop (interval_value 0 row.length c).toNat))[j]? = kb[j]? ∧
    0 ≤ interval_value 0 row.length c ∧
    interval_value 0 row.length c ≤ (row.length : Int) := by
  have hr : r.toNat < kb.length := (List.getElem?_eq_some.mp hrow).1
  have hiv : interval_value 0 ((kb.length : Int) - 1) r = r :=
    interval_value_of_mem _ r h0 h1
  obtain ⟨hc0, hcle⟩ := interval_value_nonneg_le (row.length : Int) c
    (Int.natCast_nonneg _)
  have hcnat : (interval_value 0 row.length c).toNat ≤ row.length := by omega
  refine ⟨?_, ?_, ?_, hc0, hcle⟩
  · simp only [add_button]
    rw [if_neg (show ¬ r > (kb.length : Int) - 1 by omega), hiv,
      pyGet_nonneg _ _ h0, hrow]
    simp only [pyInsert_nonneg _ _ _ hc0,
      pyInsertNat_eq_take_drop _ _ _ hcnat]
  · exact List.getElem?_set_self (by simpa using hr)
  · exact List.getElem?_set_ne (Ne.symm hj)

theorem pyGet_isSome_of {α : Type*} (l : List α) (i : Int)
    (h0 : -(l.length : Int) ≤ i) (h1 : i < (l.length : Int)) :
    ∃ x, pyGet l i = some x := by
  rcases le_or_lt 0 i with h | h
  · rw [pyGet_nonneg _ _ h]
    exact ⟨_, List.getElem?_eq_getElem (by omega)⟩
  · rw [pyGet_neg _ _ h0 h]
    exact ⟨_, List.getElem?_eq_getElem (by omega)⟩

/-- C1, counterexample to the original claim: the claim asserts that every
call with a negative `fromRow` succeeds (out-of-range indices clamped, never
rejected), but on the default grid `[[]]` the call
`addButton(5, fromRow=-2, insertColumn=0)` raises `IndexError`: the column
clamp bound `len(rows[-2])` subscripts with the raw negative index, and `-2`
is out of range for the single-row list. -/
theorem add_button_claim_failure_counterexample :
    add_button ([[]] : List (List Nat)) 5 (some (-2)) none (some 0) =
      .error .indexError := by
  rfl

/-- C1 (amended): `addButton(button, fromRow?, insertRow?, insertColumn?)`
raises `AttributeError` exactly when `fromRow` and `insertRow` are both set,
and raises `IndexError` exactly when `insertRow` is unset and either
(a) `fromRow` is set and greater than `rows.length - 1`, or (b) the grid's
row sequence is empty (every row-targeting mode subscripts it), or
(c) `fromRow` is set together with `insertColumn` and is below
`-rows.length` (the raw negative subscript in the column clamp bound is out
of range). Every other argument combination succeeds, with out-of-range
`insertRow`/`insertColumn` values (and negative `fromRow` values down to
`-rows.length`) clamped rather than rejected. On failure nothing is mutated:
every raise happens while evaluating subscripts, before any insert or
append. -/
theorem add_button_failure_characterization {β : Type} (kb : List (List β))
    (b : β) (fr ir ic : Option Int) :
    (add_button kb b fr ir ic = .error .attributeError ↔
      fr.isSome = true ∧ ir.isSome = true) ∧
    (add_button kb b fr ir ic = .error .indexError ↔
      ir = none ∧
        ((∃ r, fr = some r ∧ ((kb.length : Int) - 1 < r ∨ kb = [] ∨
            (ic.isSome = true ∧ r < -(kb.length : Int)))) ∨
          (fr = none ∧ kb = []))) := by
  rcases fr with _ | r
  · rcases ir with _ | i
    · rcases eq_or_ne kb [] with hkb | hkb
      · subst hkb
        have hres : add_button ([] : List (List β)) b none none ic =
            .error .indexError := by
          rcases ic with _ | c <;> simp only [add_button, pyGet_nil]
        rw [hres]
        simp
      · have hlen := List.length_pos.mpr hkb
        obtain ⟨last, hlast⟩ := pyGet_isSome_of kb (-1) (by omega) (by omega)
        have hres : ∃ kb', add_button kb b none none ic = .ok kb' := by
          rcases ic with _ | c
          · exact ⟨kb.set (kb.length - 1) (last ++ [b]),
              by simp only [add_button, hlast]⟩
          · exact ⟨kb.set (kb.length - 1)
                (pyInsert last (interval_value 0 last.length c) b),
              by simp only [add_button, hlast]⟩
        obtain ⟨kb', hres⟩ := hres
        rw [hres]
        simp [hkb]
    · have hres : add_button kb b none (some i) ic =
          .ok (pyInsert kb (interval_value 0 ((kb.length : Int) - 1 + 1) i)
            [b]) := by
        simp only [add_button]
      rw [hres]
      simp
  · rcases ir with _ | i
    · rcases eq_or_ne kb [] with hkb | hkb
      · subst hkb
        have hres : add_button ([] : List (List β)) b (some r) none ic =
            .error .indexError := by
          simp only [add_button]
          split
          · rfl
          · rcases ic with _ | c <;> simp [pyGet_nil]
        rw [hres]
        simp
      · have hlen := List.length_pos.mpr hkb
        rcases lt_or_le ((kb.length : Int) - 1) r with hgt | hle
        · have hres : add_button kb b (some r) none ic =
              .error .indexError := by
            simp only [add_button]
            rw [if_pos hgt]
          rw [hres]
          simp [hgt, hkb]
        · obtain ⟨hv0, hvle⟩ := interval_value_nonneg_le
            ((kb.length : Int) - 1) r (by omega)
          obtain ⟨target, htarget⟩ := pyGet_isSome_of kb
            (interval_value 0 ((kb.length : Int) - 1) r) (by omega) (by omega)
          have hngt : ¬ r > (kb.length : Int) - 1 := by omega
          rcases ic with _ | c
          · have hres : add_button kb b (some r) none none =
                .ok (kb.set
                  (interval_value 0 ((kb.length : Int) - 1) r).toNat
                  (target ++ [b])) := by
              simp only [add_button]
              rw [if_neg hngt, htarget]
            rw [hres]
            simp [hkb]
            omega
          · rcases lt_or_le r (-(kb.length : Int)) with hneg | hge
            · have hres : add_button kb b (some r) none (some c) =
                  .error .indexError := by
                simp only [add_button]
                rw [if_neg hngt, htarget, pyGet_too_neg _ _ hneg]
              rw [hres]
              simp [hneg]
            · obtain ⟨rowFr, hrowFr⟩ := pyGet_isSome_of kb r hge (by omega)
              have hres : add_button kb b (some r) none (some c) =
                  .ok (kb.set
                    (interval_value 0 ((kb.length : Int) - 1) r).toNat
                    (pyInsert target (interval_value 0 rowFr.length c) b)) := by
                simp only [add_button]
                rw [if_neg hngt, htarget, hrowFr]
              rw [hres]
              simp [hkb]
              omega
    · have hres : add_button kb b (some r) (some i) ic =
          .error .attributeError := by
        simp only [add_button]
      rw [hres]
      simp

theorem pyInsertNat_ne_nil {α : Type*} (x : α) (n : Nat) (l : List α) :
    pyInsertNat x n l ≠ [] := by
  have h := pyInsertNat_length x n l
  intro hc
  rw [hc] at h
  simp at h

theorem pyInsert_ne_nil {α : Type*} (l : List α) (i : Int) (x : α) :
    pyInsert l i x ≠ [] := by
  unfold pyInsert
  exact pyInsertNat_ne_nil _ _ _

theorem set_ne_nil {α : Type*} (l : List α) (i : Nat) (a : α) (h : l ≠ []) :
    l.set i a ≠ [] := by
  have h1 : (l.set i a).length = l.length := List.length_set l i a
  have h2 : 0 < l.length := List.length_pos.mpr h
  intro hc
  rw [hc] at h1
  simp at h1
  omega

theorem add_button_ok_ne_nil {β : Type} (kb kb' : List (List β)) (b : β)
    (fr ir ic : Option Int) (hne : kb ≠ [])
    (hok : add_button kb b fr ir ic = .ok kb') : kb' ≠ [] := by
  rcases fr with _ | r <;> rcases ir with _ | i <;> rcases ic with _ | c <;>
    simp only [add_button] at hok
  all_goals repeat' split at hok
  all_goals
    first
      | (subst hok;
          first
            | exact set_ne_nil _ _ _ hne
            | exact pyInsert_ne_nil _ _ _)
      | (injection hok with h; subst h;
          first
            | exact set_ne_nil _ _ _ hne
            | exact pyInsert_ne_nil _ _ _)
      | simp at hok

/-- C2, counterexample to the original claim: constructing the grid from an
explicitly EMPTY sequence of rows does not yield `[[]]` — the constructor
only substitutes the default when the argument is absent (`is None`), so
`InlineKeyboardMarkup([])` has an empty `inline_keyboard`, violating the
claimed never-empty invariant. -/
theorem initKeyboard_empty_counterexample :
    initKeyboard (some ([] : List (List Nat))) = [] ∧
    ([] : List (List Nat)) ≠ [[]] :=
  ⟨rfl, by decide⟩

/-- C2 (amended): the `rows` attribute defaults to the single-empty-row grid
`[[]]` exactly when the constructor argument is omitted (`None`); an
explicitly supplied sequence — including an empty one — is stored as given.
Once the row sequence is non-empty, every successful `addButton` keeps it
non-empty. -/
theorem initKeyboard_default_invariant {β : Type} (rows : List (List β))
    (kb kb' : List (List β)) (b : β) (fr ir ic : Option Int)
    (hne : kb ≠ []) (hok : add_button kb b fr ir ic = .ok kb') :
    initKeyboard (none : Option (List (List β))) = [[]] ∧
    initKeyboard (some rows) = rows ∧
    kb' ≠ [] :=
  ⟨rfl, rfl, add_button_ok_ne_nil kb kb' b fr ir ic hne hok⟩

/-- C2, witness: the amended theorem applied to the concrete grid `[[]]` and
an argument-free `addButton` call appending 7 to the last row. -/
theorem initKeyboard_default_invariant_witness :
    initKeyboard (none : Option (List (List Nat))) = [[]] ∧
    initKeyboard (some [[1]]) = [[1]] ∧
    ([[7]] : List (List Nat)) ≠ [] :=
  initKeyboard_default_invariant [[1]] [[]] [[7]] 7 none none none
    (by decide) (by rfl)

theorem zipAll_eq_iff {α : Type*} (eqb : α → α → Bool) :
    ∀ (l1 l2 : List α),
      (l1.length == l2.length &&
        (List.zip l1 l2).all fun p => eqb p.1 p.2) = true ↔
      (l1.length = l2.length ∧
        ∀ (i : Nat) (x y : α), l1[i]? = some x → l2[i]? = some y →
          eqb x y = true)
  | [], [] => by simp
  | [], y :: l2 => by simp
  | x :: l1, [] => by simp
  | x :: l1, y :: l2 => by
    have ih := zipAll_eq_iff eqb l1 l2
    constructor
    · intro h
      simp only [List.length_cons, List.zip_cons_cons, List.all_cons,
        Bool.and_eq_true, beq_iff_eq] at h
      obtain ⟨hl, hxy, hrest⟩ := h
      refine ⟨by simpa using hl, ?_⟩
      intro i a b ha hb
      cases i with
      | zero =>
        simp only [List.getElem?_cons_zero, Option.some.injEq] at ha hb
        rw [← ha, ← hb]
        exact hxy
      | succ i =>
        simp only [List.getElem?_cons_succ] at ha hb
        have h2 := ih.mp (by
          simp only [Bool.and_eq_true, beq_iff_eq]
          exact ⟨by omega, hrest⟩)
        exact h2.2 i a b ha hb
    · rintro ⟨hl, hP⟩
      have hxy := hP 0 x y (by simp) (by simp)
      have htail := ih.mpr ⟨by simpa using hl,
        fun i a b ha hb => hP (i + 1) a b (by simpa) (by simpa)⟩
      simp only [Bool.and_eq_true, beq_iff_eq] at htail
      simp only [List.length_cons, List.zip_cons_cons, List.all_cons,
        Bool.and_eq_true, beq_iff_eq]
      exact ⟨by omega, hxy, htail.2⟩

theorem zipAll_map_congr {α γ : Type*} (eqb : α → α → Bool) (f : α → γ)
    (hf : ∀ x y, eqb x y = true → f x = f y) :
    ∀ (l1 l2 : List α),
      (l1.length == l2.length &&
        (List.zip l1 l2).all fun p => eqb p.1 p.2) = true →
      l1.map f = l2.map f
  | [], [], _ => rfl
  | [], _ :: _, h => by simp at h
  | _ :: _, [], h => by simp at h
  | x :: l1, y :: l2, h => by
    simp only [List.length_cons, List.zip_cons_cons, List.all_cons,
      Bool.and_eq_true, beq_iff_eq] at h
    obtain ⟨hl, hxy, hrest⟩ := h
    simp only [List.map_cons, hf x y hxy, List.cons.injEq, true_and]
    exact zipAll_map_congr eqb f hf l1 l2 (by
      simp only [Bool.and_eq_true, beq_iff_eq]
      exact ⟨by omega, hrest⟩)

theorem zipAll_refl {α : Type*} (eqb : α → α → Bool)
    (hrefl : ∀ x, eqb x x = true) :
    ∀ l : List α,
      (l.length == l.length && (List.zip l l).all fun p => eqb p.1 p.2) = true
  | [] => rfl
  | x :: l => by
    have ih := zipAll_refl eqb hrefl l
    simp only [Bool.and_eq_true, beq_iff_eq] at ih
    simp only [List.length_cons, List.zip_cons_cons, List.all_cons,
      Bool.and_eq_true, beq_iff_eq]
    exact ⟨trivial, hrefl x, ih.2⟩

/-- Pointwise characterization of the row loop of `__eq__`. -/
theorem row_eq_iff {β : Type} (btnEq : β → β → Bool) (ra rb : List β) :
    row_eq btnEq ra rb = true ↔
      (ra.length = rb.length ∧
        ∀ (j : Nat) (x y : β), ra[j]? = some x → rb[j]? = some y →
          btnEq x y = true) :=
  zipAll_eq_iff btnEq ra rb

/-- Pointwise characterization of the grid loop of `__eq__`. -/
theorem kb_eq_iff {β : Type} (btnEq : β → β → Bool) (a b : List (List β)) :
    kb_eq btnEq a b = true ↔
      (a.length = b.length ∧
        ∀ (i : Nat) (ra rb : List β), a[i]? = some ra → b[i]? = some rb →
          row_eq btnEq ra rb = true) :=
  zipAll_eq_iff (row_eq btnEq) a b

/-- C5: two grids are equal under `__eq__` iff they have the same number of
rows, each pair of rows at the same index has the same number of buttons, and
each pair of buttons at the same (row, column) position compares equal under
the button type's own equality; and a grid is never equal to a value of an
unrelated type. -/
theorem markup_eq_characterization {β : Type} (btnEq : β → β → Bool)
    (a b : InlineKeyboardMarkup β) :
    (markup_eq btnEq a (.markup b) = true ↔
      (a.inline_keyboard.length = b.inline_keyboard.length ∧
        ∀ (i : Nat) (ra rb : List β),
          a.inline_keyboard[i]? = some ra → b.inline_keyboard[i]? = some rb →
            (ra.length = rb.length ∧
              ∀ (j : Nat) (x y : β), ra[j]? = some x → rb[j]? = some y →
                btnEq x y = true))) ∧
    ∀ t : Nat, markup_eq btnEq a (.other t) = false := by
  constructor
  · rw [show markup_eq btnEq a (.markup b) =
      kb_eq btnEq a.inline_keyboard b.inline_keyboard from rfl, kb_eq_iff]
    simp only [row_eq_iff]
  · intro t
    rfl

/-- C6: hashing is consistent with equality: whenever the button type's own
hash agrees on buttons its own equality identifies, two grids equal under
`__eq__` have equal `__hash__` values; the hash is a deterministic function
of the full nested button sequence. -/
theorem kb_hash_consistent {β : Type} (btnEq : β → β → Bool) (hb : β → Nat)
    (hcomp : ∀ x y, btnEq x y = true → hb x = hb y)
    (a b : List (List β)) (heq : kb_eq btnEq a b = true) :
    kb_hash hb a = kb_hash hb b := by
  have hmaps : (a.map fun row => row.map hb) = b.map fun row => row.map hb :=
    zipAll_map_congr (row_eq btnEq) (fun row => row.map hb)
      (fun ra rb h => zipAll_map_congr btnEq hb hcomp ra rb h) a b heq
  unfold kb_hash
  rw [show (a.map fun row => pyTupleHash (row.map hb)) =
      (a.map fun row => row.map hb).map pyTupleHash by rw [List.map_map]; rfl]
  rw [show (b.map fun row => pyTupleHash (row.map hb)) =
      (b.map fun row => row.map hb).map pyTupleHash by rw [List.map_map]; rfl]
  rw [hmaps]

/-- C6, witness: the hash-consistency theorem applied to two concretely equal
grids over natural-number buttons with the identity hash. -/
theorem kb_hash_consistent_witness :
    kb_eq (fun x y : Nat => x == y) [[1, 2]] [[1, 2]] = true ∧
    kb_hash id [[1, 2]] = kb_hash id [[1, 2]] :=
  ⟨by decide, kb_hash_consistent (fun x y => x == y) id
    (fun x y h => by simpa using h) [[1, 2]] [[1, 2]] (by decide)⟩

/-- C7: round-trip: for a grid whose button type round-trips through its own
serialize/deserialize pair, `de_json(to_dict(g))` yields the grid `g` itself
(so in particular a grid equal to `g` under `__eq__`, given that the button
equality is reflexive), with row and column order preserved exactly. -/
theorem de_json_to_dict_roundtrip {β δ : Type} (btnToDict : β → δ)
    (btnDeJson : δ → Option β) (btnEq : β → β → Bool)
    (hrt : ∀ x, btnDeJson (btnToDict x) = some x)
    (hrefl : ∀ x, btnEq x x = true)
    (m : InlineKeyboardMarkup β) :
    de_json btnDeJson (some (to_dict btnToDict m)) = .ok (some m) ∧
    markup_eq btnEq m (.markup m) = true := by
  constructor
  · simp only [de_json, to_dict]
    rw [if_neg (by simp [JSONDict.isFalsy])]
    have hrow : ∀ row : List β,
        List.filterMap btnDeJson (row.map btnToDict) = row := by
      intro row
      rw [List.filterMap_map]
      rw [show btnDeJson ∘ btnToDict = fun x => some x from funext hrt]
      exact List.filterMap_some row
    have hall : (m.inline_keyboard.map fun row => row.map btnToDict).map
        (fun row => row.filterMap btnDeJson) = m.inline_keyboard := by
      rw [List.map_map]
      rw [show ((fun row : List δ => row.filterMap btnDeJson) ∘
        fun row : List β => row.map btnToDict) = fun row : List β => row from
        funext hrow]
      exact List.map_id' m.inline_keyboard
    rw [hall]
  · show kb_eq btnEq m.inline_keyboard m.inline_keyboard = true
    exact zipAll_refl (row_eq btnEq)
      (fun row => zipAll_refl btnEq hrefl row) m.inline_keyboard

/-- C7, witness: the round-trip theorem at the concrete grid `[[1, 2], [3]]`
over natural-number buttons with the identity serializer. -/
theorem de_json_to_dict_roundtrip_witness :
    de_json (some : Nat → Option Nat)
      (some (to_dict (id : Nat → Nat) ⟨[[1, 2], [3]]⟩)) =
      .ok (some ⟨[[1, 2], [3]]⟩) ∧
    markup_eq (fun x y : Nat => x == y) ⟨[[1, 2], [3]]⟩
      (.markup ⟨[[1, 2], [3]]⟩) = true :=
  de_json_to_dict_roundtrip id some (fun x y => x == y)
    (fun _ => rfl) (fun x => by simp) ⟨[[1, 2], [3]]⟩

/-- C8: `de_json` yields `None` (not an error) when the input mapping is
absent or empty; otherwise a button entry whose own deserialization yields
`None` is silently skipped — not inserted into its row — while parsing
continues for the remaining entries of its row and for all other rows. -/
theorem de_json_empty_and_skip {β δ : Type} (btnDeJson : δ → Option β)
    (d : JSONDict δ) (pre post : List δ) (bad : δ)
    (rows1 rows2 : List (List δ))
    (hbad : btnDeJson bad = none)
    (hd : d.inline_keyboard = some (rows1 ++ (pre ++ bad :: post) :: rows2)) :
    de_json btnDeJson (none : Option (JSONDict δ)) = .ok none ∧
    de_json btnDeJson (some (⟨none, 0⟩ : JSONDict δ)) = .ok none ∧
    de_json btnDeJson (some d) =
      .ok (some ⟨(rows1.map fun row => row.filterMap btnDeJson) ++
        (pre.filterMap btnDeJson ++ post.filterMap btnDeJson) ::
        (rows2.map fun row => row.filterMap btnDeJson)⟩) := by
  refine ⟨rfl, by simp [de_json, JSONDict.isFalsy], ?_⟩
  cases d with
  | mk ik oth =>
    simp only at hd
    subst hd
    simp only [de_json, JSONDict.isFalsy]
    rw [if_neg (by simp)]
    simp [List.filterMap_append, List.filterMap_cons, hbad]

/-- C8, witness: the theorem applied to a concrete dict whose middle button
value 9 fails to deserialize and is skipped while 1, 2 and 3 survive. -/
theorem de_json_empty_and_skip_witness :
    de_json (fun v : Nat => if v = 9 then none else some v)
      (none : Option (JSONDict Nat)) = .ok none ∧
    de_json (fun v : Nat => if v = 9 then none else some v)
      (some (⟨none, 0⟩ : JSONDict Nat)) = .ok none ∧
    de_json (fun v : Nat => if v = 9 then none else some v)
      (some (⟨some [[1, 9, 2], [3]], 0⟩ : JSONDict Nat)) =
      .ok (some ⟨[[1, 2], [3]]⟩) := by
  have h := de_json_empty_and_skip
    (fun v : Nat => if v = 9 then none else some v)
    ⟨some [[1, 9, 2], [3]], 0⟩ [1] [2] 9 [] [[3]] rfl rfl
  exact ⟨h.1, h.2.1, h.2.2.trans (by rfl)⟩

/-- C9 (modelled from the spec, `add_from_markup` itself is not under
`src/`): merging grid B into grid A at insertion index `i ≤ A.length` places
B's rows contiguously starting at index `i`, keeps A's first `i` rows in
place, shifts A's remaining rows down by `B.length` preserving their order,
and with no index appends B's rows at the end. -/
theorem add_from_markup_merges {β : Type} (a b : List (List β))
    (i j1 j2 j3 : Nat) (h : i ≤ a.length) (hj1 : j1 < i)
    (hj2 : j2 < b.length) :
    add_from_markup a b none = a ++ b ∧
    (add_from_markup a b (some i)).length = a.length + b.length ∧
    (add_from_markup a b (some i))[j1]? = a[j1]? ∧
    (add_from_markup a b (some i))[i + j2]? = b[j2]? ∧
    (add_from_markup a b (some i))[i + b.length + j3]? = a[i + j3]? := by
  have hlt : (a.take i).length = i := by rw [List.length_take]; omega
  refine ⟨rfl, ?_, ?_, ?_, ?_⟩
  · show ((a.take i ++ b) ++ a.drop i).length = a.length + b.length
    simp only [List.length_append, hlt, List.length_drop]
    omega
  · show ((a.take i ++ b) ++ a.drop i)[j1]? = a[j1]?
    rw [List.getElem?_append_left (by rw [List.length_append, hlt]; omega),
      List.getElem?_append_left (by rw [hlt]; exact hj1),
      List.getElem?_take, if_pos hj1]
  · show ((a.take i ++ b) ++ a.drop i)[i + j2]? = b[j2]?
    rw [List.getElem?_append_left (by rw [List.length_append, hlt]; omega),
      List.getElem?_append_right (by rw [hlt]; omega), hlt]
    congr 1
    omega
  · show ((a.take i ++ b) ++ a.drop i)[i + b.length + j3]? = a[i + j3]?
    rw [List.getElem?_append_right (by rw [List.length_append, hlt]; omega),
      List.length_append, hlt,
      show i + b.length + j3 - (i + b.length) = j3 by omega,
      List.getElem?_drop]

/-- C9, witness: merging `[[3], [4]]` into `[[1], [2]]` at index 1. -/
theorem add_from_markup_merges_witness :
    add_from_markup [[1], [2]] [[3], [4]] none =
      ([[1], [2]] : List (List Nat)) ++ [[3], [4]] ∧
    (add_from_markup ([[1], [2]] : List (List Nat)) [[3], [4]]
      (some 1)).length =
      ([[1], [2]] : List (List Nat)).length +
        ([[3], [4]] : List (List Nat)).length ∧
    (add_from_markup ([[1], [2]] : List (List Nat)) [[3], [4]]
      (some 1))[0]? = ([[1], [2]] : List (List Nat))[0]? ∧
    (add_from_markup ([[1], [2]] : List (List Nat)) [[3], [4]]
      (some 1))[1 + 1]? = ([[3], [4]] : List (List Nat))[1]? ∧
    (add_from_markup ([[1], [2]] : List (List Nat)) [[3], [4]]
      (some 1))[1 + ([[3], [4]] : List (List Nat)).length + 0]? =
      ([[1], [2]] : List (List Nat))[1 + 0]? :=
  add_from_markup_merges [[1], [2]] [[3], [4]] 1 0 1 0
    (by decide) (by decide) (by decide)

/-- C10: a non-empty input mapping that lacks the `"inline_keyboard"` key
makes `de_json` raise `KeyError` (it returns neither a grid nor `None`): the
key lookup is unguarded, and `de_json` is total exactly on inputs that are
absent, empty, or carry the key. -/
theorem de_json_missing_key {β δ : Type} (btnDeJson : δ → Option β)
    (d d2 : JSONDict δ)
    (hnokey : d.inline_keyboard = none) (hnonempty : d.otherKeys ≠ 0)
    (hd2 : d2.inline_keyboard.isSome = true) :
    de_json btnDeJson (some d) = .error () ∧
    (de_json btnDeJson (some d2)).isOk = true := by
  constructor
  · simp only [de_json]
    rw [if_neg (by simp [JSONDict.isFalsy, hnokey, hnonempty])]
    rw [hnokey]
  · obtain ⟨rows, hrows⟩ := Option.isSome_iff_exists.mp hd2
    simp only [de_json]
    rw [if_neg (by simp [JSONDict.isFalsy, hrows])]
    rw [hrows]
    rfl

/-- C10, witness: the dict `{"other": ...}` (one key, no inline keyboard)
raises, while a dict carrying the key parses. -/
theorem de_json_missing_key_witness :
    de_json (some : Nat → Option Nat) (some (⟨none, 1⟩ : JSONDict Nat)) =
      .error () ∧
    (de_json (some : Nat → Option Nat)
      (some (⟨some [[5]], 0⟩ : JSONDict Nat))).isOk = true :=
  de_json_missing_key some ⟨none, 1⟩ ⟨some [[5]], 0⟩ rfl (by decide) rfl

/-- C3, witness: the amended theorem at the grid `[[1, 2]]` with `fromRow=0`
and `insertColumn=1`, producing `[[1, 9, 2]]`. -/
theorem add_button_from_row_column_witness :
    add_button [[1, 2]] 9 (some 0) none (some 1) = .ok [[1, 9, 2]] ∧
    (0 : Int) ≤ 0 ∧
    (0 : Int) ≤ (([[1, 2]] : List (List Nat)).length : Int) - 1 ∧
    ([[1, 2]] : List (List Nat))[(0 : Int).toNat]? = some [1, 2] := by
  have h := add_button_from_row_column [[1, 2]] 9 0 1 [1, 2] 1
    (by decide) (by decide) (by decide) (by decide)
  exact ⟨h.1.trans (by rfl), by decide, by decide, by decide⟩
